import Mathlib

/-!
Shallow embedding of the samsung_nasa codec, broker and client
(src/parser/src/packet.rs, src/parser/src/frame.rs, src/busd/src/main.rs,
src/client/src/lib.rs).  Bytes are modelled as `Nat`; machine-integer
truncation is written explicitly with `%`/`/` where the source relies on a
fixed-width type.  Fallible Rust functions return `Except`; a Rust panic
(`unreachable!`/`expect`) is modelled as a distinguished result.
-/

namespace SamsungNasa

/-- Decidable equality for `Except`, used to evaluate codec results on
concrete inputs. -/
instance {ε α : Type} [DecidableEq ε] [DecidableEq α] : DecidableEq (Except ε α) :=
  fun x y =>
    match x, y with
    | .ok a, .ok b =>
      if h : a = b then .isTrue (by rw [h])
      else .isFalse (fun hc => h (by injection hc))
    | .error a, .error b =>
      if h : a = b then .isTrue (by rw [h])
      else .isFalse (fun hc => h (by injection hc))
    | .ok _, .error _ => .isFalse (fun hc => Except.noConfusion hc)
    | .error _, .ok _ => .isFalse (fun hc => Except.noConfusion hc)

/-- `Address` (packet.rs): a `(class, channel, address)` byte triple. -/
structure Address where
  class_ : Nat
  channel : Nat
  address : Nat
deriving DecidableEq

/-- `Address::to_bytes`. -/
def Address.to_bytes (a : Address) : List Nat :=
  [a.class_, a.channel, a.address]

/-- `Address::from_bytes`. -/
def Address.from_bytes : Nat × Nat × Nat → Address
  | (b0, b1, b2) => { class_ := b0, channel := b1, address := b2 }

/-- `PacketInfo` (packet.rs): one bit-packed byte, fields kept separately.
`info : u1`, `protocol_version : u2`, `retry_count : u2`, `reserved : u3`. -/
structure PacketInfo where
  info : Nat
  protocol_version : Nat
  retry_count : Nat
  reserved : Nat
deriving DecidableEq

/-- `PacketInfo::from_byte`. -/
def PacketInfo.from_byte (byte : Nat) : PacketInfo where
  info := byte >>> 7
  protocol_version := (byte &&& 0x60) >>> 5
  retry_count := (byte &&& 0x18) >>> 3
  reserved := byte &&& 0x07

/-- `PacketInfo::to_byte`: emits bit 7 as 1 and bits 2-0 as 0 regardless of
the `info`/`reserved` fields. -/
def PacketInfo.to_byte (pi : PacketInfo) : Nat :=
  0x80 ||| (pi.protocol_version <<< 5) ||| (pi.retry_count <<< 3)

/-- `PacketType` (packet.rs). -/
inductive PacketType where
  | standBy
  | normal
  | gathering
  | install
  | download
deriving DecidableEq

/-- `DataType` (packet.rs). -/
inductive DataType where
  | undefined
  | read
  | write
  | request
  | notification
  | response
  | ack
  | nack
deriving DecidableEq

/-- `PacketError` (packet.rs). -/
inductive PacketError where
  | tooShort
  | unknownPacketType (u : Nat)
  | unexpectedStructure
  | structureTooLong (size : Nat)
deriving DecidableEq

/-- `SerializePacketError` (packet.rs).  `bufferTooShort` is unreachable in
this embedding because the output buffer is modelled as an unbounded list. -/
inductive SerializePacketError where
  | bufferTooShort
  | invalidMessageValue
  | packetTooLong
deriving DecidableEq

/-- `PacketType::from_u4`. -/
def PacketType.from_u4 (u : Nat) : Except PacketError PacketType :=
  match u with
  | 0 => .ok .standBy
  | 1 => .ok .normal
  | 2 => .ok .gathering
  | 3 => .ok .install
  | 4 => .ok .download
  | _ => .error (.unknownPacketType u)

/-- `PacketType::to_u4` (`self as u8`). -/
def PacketType.to_u4 : PacketType → Nat
  | .standBy => 0
  | .normal => 1
  | .gathering => 2
  | .install => 3
  | .download => 4

/-- `DataType::from_u4`: the source ends in `_ => unreachable!()`, so values
8-15 panic; that panic is modelled as `none`. -/
def DataType.from_u4 (u : Nat) : Option DataType :=
  match u with
  | 0 => some .undefined
  | 1 => some .read
  | 2 => some .write
  | 3 => some .request
  | 4 => some .notification
  | 5 => some .response
  | 6 => some .ack
  | 7 => some .nack
  | _ => none

/-- `DataType::to_u4` (`self as u8`). -/
def DataType.to_u4 : DataType → Nat
  | .undefined => 0
  | .read => 1
  | .write => 2
  | .request => 3
  | .notification => 4
  | .response => 5
  | .ack => 6
  | .nack => 7

/-- `MessageKind` (packet.rs). -/
inductive MessageKind where
  | enum
  | variable_
  | longVariable
  | structure_
deriving DecidableEq

/-- `MessageNumber::kind`: bits 10-9 of the 16-bit message number.  The mask
makes the selector two bits wide, so the source's `_ => unreachable!()` arm
is exactly the value 3. -/
def messageKind (n : Nat) : MessageKind :=
  match (n &&& 0x0600) >>> 9 with
  | 0 => .enum
  | 1 => .variable_
  | 2 => .longVariable
  | _ => .structure_

/-- `Value` (packet.rs): tagged value matching the message kind. -/
inductive Value where
  | enum (v : Nat)
  | variable_ (v : Nat)
  | longVariable (v : Nat)
deriving DecidableEq

/-- `Message` (packet.rs): `number` is the raw 16-bit message number. -/
structure Message where
  number : Nat
  value : Value
deriving DecidableEq

/-- `Structure` (packet.rs): message number plus raw payload remainder. -/
structure Structure where
  number : Nat
  data : List Nat
deriving DecidableEq

/-- `Data` (packet.rs). -/
inductive Data where
  | messages (msgs : List Message)
  | struct (s : Structure)
deriving DecidableEq

/-- `Packet` (packet.rs). -/
structure Packet where
  source : Address
  destination : Address
  packet_info : PacketInfo
  packet_type : PacketType
  data_type : DataType
  packet_number : Nat
  data : Data
deriving DecidableEq

/-! ## Byte readers and writers

`PacketReader` methods, modelled over a byte list.  Big-endian multi-byte
integers (`u16::from_be_bytes` / `u32::from_be_bytes`) are assembled
arithmetically. -/

/-- `PacketReader::read_array::<3>` followed by tuple view. -/
def readArray3 : List Nat → Except PacketError ((Nat × Nat × Nat) × List Nat)
  | b0 :: b1 :: b2 :: rest => .ok ((b0, b1, b2), rest)
  | _ => .error .tooShort

/-- `PacketReader::read_u8`. -/
def readU8 : List Nat → Except PacketError (Nat × List Nat)
  | b :: rest => .ok (b, rest)
  | _ => .error .tooShort

/-- `PacketReader::read_u16` (big-endian). -/
def readU16 : List Nat → Except PacketError (Nat × List Nat)
  | b0 :: b1 :: rest => .ok (b0 * 256 + b1, rest)
  | _ => .error .tooShort

/-- `PacketReader::read_u32` (big-endian). -/
def readU32 : List Nat → Except PacketError (Nat × List Nat)
  | b0 :: b1 :: b2 :: b3 :: rest =>
    .ok (b0 * 16777216 + b1 * 65536 + b2 * 256 + b3, rest)
  | _ => .error .tooShort

/-- `u16::to_be_bytes` of a value below 2^16. -/
def be16 (n : Nat) : List Nat :=
  [n / 256, n % 256]

/-- `u32::to_be_bytes` of a value below 2^32. -/
def be32 (n : Nat) : List Nat :=
  [n / 16777216, n / 65536 % 256, n / 256 % 256, n % 256]

/-! ## Packet parsing -/

/-- Result of `Packet::parse`.  `panic` marks executions where the source
aborts (the `unreachable!()` in `DataType::from_u4`). -/
inductive ParseResult where
  | ok (p : Packet)
  | err (e : PacketError)
  | panic
deriving DecidableEq

/-- The loop body of `read_payload` (packet.rs): `remaining` counts the
messages still to read, `i` is the current index, `count` is the original
`message_count` byte. -/
def readPayloadAux (count : Nat) :
    Nat → Nat → List Nat → List Message → Except PacketError Data
  | 0, _, _, acc => .ok (.messages acc)
  | remaining + 1, i, bytes, acc =>
    match readU16 bytes with
    | .error e => .error e
    | .ok (number, rest) =>
      match messageKind number with
      | .enum =>
        match readU8 rest with
        | .error e => .error e
        | .ok (v, rest2) =>
          readPayloadAux count remaining (i + 1) rest2 (acc ++ [⟨number, .enum v⟩])
      | .variable_ =>
        match readU16 rest with
        | .error e => .error e
        | .ok (v, rest2) =>
          readPayloadAux count remaining (i + 1) rest2 (acc ++ [⟨number, .variable_ v⟩])
      | .longVariable =>
        match readU32 rest with
        | .error e => .error e
        | .ok (v, rest2) =>
          readPayloadAux count remaining (i + 1) rest2 (acc ++ [⟨number, .longVariable v⟩])
      | .structure_ =>
        if i ≠ 0 ∨ count ≠ 1 then .error .unexpectedStructure
        else if 256 < rest.length then .error (.structureTooLong rest.length)
        else .ok (.struct ⟨number, rest⟩)

/-- `read_payload` (packet.rs): reads `message_count` messages; trailing
bytes after the last message are ignored, exactly as in the source. -/
def read_payload (message_count : Nat) (bytes : List Nat) : Except PacketError Data :=
  readPayloadAux message_count message_count 0 bytes []

/-- `Packet::parse` (packet.rs lines 63-89). -/
def Packet.parse (data : List Nat) : ParseResult :=
  match readArray3 data with
  | .error e => .err e
  | .ok (src, d1) =>
    match readArray3 d1 with
    | .error e => .err e
    | .ok (dst, d2) =>
      match readU8 d2 with
      | .error e => .err e
      | .ok (infoByte, d3) =>
        match readU8 d3 with
        | .error e => .err e
        | .ok (typeByte, d4) =>
          match PacketType.from_u4 (typeByte >>> 4) with
          | .error e => .err e
          | .ok packet_type =>
            match DataType.from_u4 (typeByte &&& 0xf) with
            | none => .panic
            | some data_type =>
              match readU8 d4 with
              | .error e => .err e
              | .ok (packet_number, d5) =>
                match readU8 d5 with
                | .error e => .err e
                | .ok (message_count, d6) =>
                  match read_payload message_count d6 with
                  | .error e => .err e
                  | .ok data =>
                    .ok { source := Address.from_bytes src,
                          destination := Address.from_bytes dst,
                          packet_info := PacketInfo.from_byte infoByte,
                          packet_type, data_type, packet_number, data }

/-! ## Packet serialization -/

/-- One iteration of the message loop in `Packet::serialize`: number then
value, failing on a kind/value mismatch. -/
def serializeMessage (m : Message) : Except SerializePacketError (List Nat) :=
  match messageKind m.number, m.value with
  | .enum, .enum v => .ok (be16 m.number ++ [v])
  | .variable_, .variable_ v => .ok (be16 m.number ++ be16 v)
  | .longVariable, .longVariable v => .ok (be16 m.number ++ be32 v)
  | _, _ => .error .invalidMessageValue

/-- The message loop of `Packet::serialize`. -/
def serializeMessages : List Message → Except SerializePacketError (List Nat)
  | [] => .ok []
  | m :: rest =>
    match serializeMessage m with
    | .error e => .error e
    | .ok bs =>
      match serializeMessages rest with
      | .error e => .error e
      | .ok bss => .ok (bs ++ bss)

/-- `Packet::serialize` (packet.rs lines 127-173): header, type byte,
packet number, message count, then the payload. -/
def Packet.serialize (p : Packet) : Except SerializePacketError (List Nat) :=
  let header := p.source.to_bytes ++ p.destination.to_bytes ++
    [p.packet_info.to_byte, (p.packet_type.to_u4 <<< 4) ||| p.data_type.to_u4,
     p.packet_number]
  match p.data with
  | .messages msgs =>
    match serializeMessages msgs with
    | .error e => .error e
    | .ok body => .ok (header ++ [msgs.length] ++ body)
  | .struct s =>
    if messageKind s.number ≠ .structure_ then .error .invalidMessageValue
    else .ok (header ++ [1] ++ be16 s.number ++ s.data)

/-! ## CRC-16 (frame.rs `crc16`) -/

/-- One shift step of `crc16`: 16-bit left shift with the `0x1021`
polynomial; truncation to `u16` is the explicit `% 65536`. -/
def crcShift (crc : Nat) : Nat :=
  if crc &&& 0x8000 ≠ 0 then ((crc <<< 1) % 65536) ^^^ 0x1021
  else (crc <<< 1) % 65536

/-- The inner `for _ in 0..8` loop of `crc16`. -/
def crcRounds : Nat → Nat → Nat
  | 0, crc => crc
  | n + 1, crc => crcRounds n (crcShift crc)

/-- One byte step of `crc16`: `crc ^= byte << 8` then eight shift rounds. -/
def crc16Byte (crc byte : Nat) : Nat :=
  crcRounds 8 (crc ^^^ (byte <<< 8))

/-- `crc16` (frame.rs lines 124-140): initial value 0, no reflection, no
final xor. -/
def crc16 (data : List Nat) : Nat :=
  data.foldl crc16Byte 0

/-- `Packet::serialize_frame` (packet.rs lines 91-125).  The source slices
`writer.buff[data_pos..][..data_len]` for the CRC, where `data_len` is the
value returned by `serialize` - the absolute writer position `7 + L` for a
payload of length `L` - so the CRC covers the payload plus the next 7 bytes
of the caller's output buffer.  `stale` stands for those buffer bytes at
positions `7 + L .. 14 + L`, which no write has touched yet.  The length
field is back-patched as `payload.length + 4` with the source's `u16`
overflow check. -/
def Packet.serialize_frame (p : Packet) (stale : List Nat) :
    Except SerializePacketError (List Nat) :=
  match p.serialize with
  | .error e => .error e
  | .ok payload =>
    let wire_len := payload.length + 4
    if 65536 ≤ wire_len then .error .packetTooLong
    else .ok ([0xfd, 0xf8, 0xef, 0x7c, 0x32] ++ be16 wire_len ++ payload ++
      be16 (crc16 (payload ++ stale)) ++ [0x34])

/-! ## Streaming frame parser (frame.rs) -/

/-- `State` (frame.rs).  `data remain` carries the number of payload bytes
still expected; the source keeps it as a `NonZeroUsize` and it is built only
through `next_data_state`, so `remain` is never 0 in reachable states. -/
inductive FState where
  | start
  | sizeHi
  | sizeLo (size_hi : Nat)
  | data (remain : Nat)
  | crcHi
  | crcLo (crc_hi : Nat)
  | end_
deriving DecidableEq

/-- `FrameError` (frame.rs). -/
inductive FrameError where
  | frameTooShort (size : Nat)
  | frameTooLong (size : Nat)
  | badCrc (received expected : Nat)
  | badFrameEnd (received : Nat)
deriving DecidableEq

/-- `Transition` (frame.rs). -/
inductive Transition where
  | next (s : FState)
  | complete
  | error (e : FrameError)
deriving DecidableEq

/-- `next_data_state` (frame.rs). -/
def next_data_state (remain : Nat) : FState :=
  if remain = 0 then .crcHi else .data remain

/-- `feed_byte` (frame.rs lines 72-115).  The buffer is threaded explicitly:
`SizeLo` clears it, `Data` pushes the byte.  `FRAME_START = 0x32`,
`FRAME_END = 0x34`, `MAX_FRAME_SIZE = 1024`. -/
def feed_byte (state : FState) (buffer : List Nat) (byte : Nat) :
    Transition × List Nat :=
  match state with
  | .start => if byte = 0x32 then (.next .sizeHi, buffer) else (.next .start, buffer)
  | .sizeHi => (.next (.sizeLo byte), buffer)
  | .sizeLo size_hi =>
    let size := size_hi * 256 + byte
    if size < 4 then (.error (.frameTooShort size), buffer)
    else if 1024 < size - 4 then (.error (.frameTooLong size), buffer)
    else (.next (next_data_state (size - 4)), [])
  | .data remain => (.next (next_data_state (remain - 1)), buffer ++ [byte])
  | .crcHi => (.next (.crcLo byte), buffer)
  | .crcLo crc_hi =>
    let received := crc_hi * 256 + byte
    let expected := crc16 buffer
    if received ≠ expected then (.error (.badCrc received expected), buffer)
    else (.next .end_, buffer)
  | .end_ => if byte = 0x34 then (.complete, buffer) else (.error (.badFrameEnd byte), buffer)

/-- `FrameParser` (frame.rs): state plus payload buffer. -/
structure FrameParser where
  state : FState
  buffer : List Nat
deriving DecidableEq

/-- A fresh parser (`FrameParser::new`). -/
def FrameParser.new : FrameParser :=
  { state := .start, buffer := [] }

/-- `FrameParser::feed` (frame.rs lines 47-63): on `Complete` emit the
buffer and reset to `Start`; on error reset to `Start` and surface it. -/
def FrameParser.feed (fp : FrameParser) (byte : Nat) :
    FrameParser × Except FrameError (Option (List Nat)) :=
  match feed_byte fp.state fp.buffer byte with
  | (.next s, buf) => (⟨s, buf⟩, .ok none)
  | (.complete, buf) => (⟨.start, buf⟩, .ok (some buf))
  | (.error e, buf) => (⟨.start, buf⟩, .error e)

/-- Feed a byte list one byte at a time, collecting the per-byte results in
order (the receive loops in busd and the client transport do exactly this). -/
def feedAll (fp : FrameParser) : List Nat →
    FrameParser × List (Except FrameError (Option (List Nat)))
  | [] => (fp, [])
  | b :: rest =>
    match fp.feed b with
    | (fp1, r) =>
      match feedAll fp1 rest with
      | (fp2, rs) => (fp2, r :: rs)

/-! ## Broker routing (busd/src/main.rs)

`run_bus` and `run_client` wire two channels: an mpsc `send_tx` carrying
client packets to the bus writer task (which writes them to the serial
port and nothing else), and a broadcast `recv_tx` carrying re-serialized
bus packets to every connected client task.  The routing of one valid
parsed packet is therefore a pure function of where it arrived. -/

/-- A packet event at the broker: parsed from a client connection, or
parsed from the serial bus. -/
inductive BusEvent where
  | fromClient (sender : Nat) (p : Packet)
  | fromBus (p : Packet)

/-- Where one valid packet goes: whether it is written to the serial bus,
and which connected clients receive its re-serialized bytes. -/
structure Routing where
  toBus : Bool
  toClients : List Nat
deriving DecidableEq

/-- Broker fan-out for one valid packet, given the connected client ids:
`run_client` forwards client packets to the bus via `send_tx` only;
`run_bus` broadcasts bus packets to every client via `recv_tx`. -/
def routePacket (clients : List Nat) : BusEvent → Routing
  | .fromClient _ _ => { toBus := true, toClients := [] }
  | .fromBus _ => { toBus := false, toClients := clients }

/-! ## Client request/reply engine (client/src/lib.rs)

The waiting table `waiting : Mutex<HashMap<u8, oneshot::Sender>>` is
modelled as the list of packet numbers that currently hold a reply slot.
`send_with_retry` is driven by the sequence of outcomes of its reply wait:
a matching reply (which `on_reply` has already routed, removing the table
entry), the oneshot sender being dropped, or the 1-second timeout. -/

/-- `LOCAL_ADDRESS` (client/src/lib.rs): `80.10.10`. -/
def LOCAL_ADDRESS : Address :=
  { class_ := 0x80, channel := 0x10, address := 0x10 }

/-- `HashMap::remove` on the key set. -/
def removeKey (w : List Nat) (k : Nat) : List Nat :=
  w.filter (fun x => x ≠ k)

/-- `HashMap::insert` on the key set (replacing any existing entry). -/
def insertKey (w : List Nat) (k : Nat) : List Nat :=
  k :: removeKey w k

/-- Outcome of one reply wait in `send_with_retry`'s loop. -/
inductive WaitOutcome where
  | reply (p : Packet)
  | dropped
  | timeout

/-- Result of `send_with_retry`. -/
inductive SendResult where
  | ok (p : Packet)
  | lostTransport
  | maxRetriesExceeded
deriving DecidableEq

/-- The loop of `send_with_retry` (client/src/lib.rs lines 177-200).
Returns the final result (`none` when the schedule ran out while the loop
was still waiting), the trace of sends as `(packet_number, retry_count)`
pairs in order, and the final waiting table.  A `reply` outcome carries the
table with the entry already removed, because `on_reply` removes it before
completing the oneshot; neither error return touches the table (the source
leaves that as `// TODO remove waiting oneshot on drop`).  `u2::MAX = 3`;
`wrapping_add` on `u2` is `% 4`. -/
def send_with_retry_loop (pn : Nat) :
    Nat → List Nat → List WaitOutcome → Option SendResult × List (Nat × Nat) × List Nat
  | rc, w, [] => (none, [(pn, rc)], w)
  | rc, w, .reply p :: _ => (some (.ok p), [(pn, rc)], removeKey w pn)
  | rc, w, .dropped :: _ => (some .lostTransport, [(pn, rc)], w)
  | rc, w, .timeout :: rest =>
    if rc = 3 then (some .maxRetriesExceeded, [(pn, rc)], w)
    else
      match send_with_retry_loop pn ((rc + 1) % 4) w rest with
      | (res, trace, w2) => (res, (pn, rc) :: trace, w2)

/-- `send_with_retry` (client/src/lib.rs lines 166-201): insert the reply
slot for `pn`, then run the send/wait loop. -/
def send_with_retry (w : List Nat) (pn rc : Nat) (sched : List WaitOutcome) :
    Option SendResult × List (Nat × Nat) × List Nat :=
  send_with_retry_loop pn rc (insertKey w pn) sched

/-- What the receive task does with one packet besides dropping it. -/
inductive DispatchAction where
  | ignore
  | notifyWatches (source : Address) (msgs : List Message)
  | completeSlot (pn : Nat)
deriving DecidableEq

/-- `on_reply` (client/src/lib.rs lines 253-269): ignore packets not
addressed to us, otherwise remove the slot keyed by packet_number and
complete it when it exists. -/
def on_reply (localAddr : Address) (w : List Nat) (p : Packet) :
    DispatchAction × List Nat :=
  if p.destination ≠ localAddr then (.ignore, w)
  else if p.packet_number ∈ w then (.completeSlot p.packet_number, removeKey w p.packet_number)
  else (.ignore, w)

/-- One iteration of the receive task `task` (client/src/lib.rs lines
227-251): non-`Normal` packets and `Structure` payloads are skipped,
`Notification` goes to the watch registry, `Ack`/`Nack`/`Response` go to
`on_reply`, everything else is dropped. -/
def task_step (localAddr : Address) (w : List Nat) (p : Packet) :
    DispatchAction × List Nat :=
  if p.packet_type ≠ .normal then (.ignore, w)
  else
    match p.data with
    | .struct _ => (.ignore, w)
    | .messages msgs =>
      match p.data_type with
      | .notification => (.notifyWatches p.source msgs, w)
      | .ack => on_reply localAddr w p
      | .nack => on_reply localAddr w p
      | .response => on_reply localAddr w p
      | _ => (.ignore, w)

/-! ## Well-formedness

The Rust types constrain every field (`u8`/`u16`/`u32`/`u1`/`u2`/`u3`,
heapless capacities); over `Nat` those bounds become an explicit predicate.
`Value.wfb` also demands that the value variant match the kind encoded in
the message number, which is the "message kinds match their ids" side
condition of the round-trip property. -/

/-- Field bounds plus kind agreement for one message. -/
def Message.wfb (m : Message) : Bool :=
  decide (m.number < 65536) &&
  match messageKind m.number, m.value with
  | .enum, .enum v => decide (v < 256)
  | .variable_, .variable_ v => decide (v < 65536)
  | .longVariable, .longVariable v => decide (v < 4294967296)
  | _, _ => false

/-- `u8` bounds of an address triple. -/
def Address.wfb (a : Address) : Bool :=
  decide (a.class_ < 256) && decide (a.channel < 256) && decide (a.address < 256)

/-- `u1`/`u2`/`u2`/`u3` bounds of the packet-info fields. -/
def PacketInfo.wfb (pi : PacketInfo) : Bool :=
  decide (pi.info < 2) && decide (pi.protocol_version < 4) &&
  decide (pi.retry_count < 4) && decide (pi.reserved < 8)

/-- Bounds of the payload: message count fits `u8` and every message is
well formed, or the structure has a structure-kind number and at most 256
data bytes each below 256. -/
def Data.wfb : Data → Bool
  | .messages msgs => decide (msgs.length ≤ 255) && msgs.all Message.wfb
  | .struct s =>
    decide (s.number < 65536) && decide (messageKind s.number = .structure_) &&
    decide (s.data.length ≤ 256) && s.data.all (fun b => decide (b < 256))

/-- A packet representable by the Rust `Packet` type with message kinds
matching their ids. -/
def Packet.wfb (p : Packet) : Bool :=
  p.source.wfb && p.destination.wfb && p.packet_info.wfb &&
  decide (p.packet_number < 256) && p.data.wfb

/-- Whether a payload is a message list (the `let Data::Messages(..) = ..`
test in the client receive task). -/
def Data.isMessages : Data → Bool
  | .messages _ => true
  | .struct _ => false

/-! ## Helper lemmas -/

theorem readArray3_cons (b0 b1 b2 : Nat) (rest : List Nat) :
    readArray3 (b0 :: b1 :: b2 :: rest) = .ok ((b0, b1, b2), rest) := rfl

theorem readU8_cons (b : Nat) (rest : List Nat) :
    readU8 (b :: rest) = .ok (b, rest) := rfl

theorem readU16_be16 (n : Nat) (rest : List Nat) :
    readU16 (be16 n ++ rest) = .ok (n, rest) := by
  have h : n / 256 * 256 + n % 256 = n := by omega
  simp only [be16, List.cons_append, List.nil_append, readU16, h]

theorem readU32_be32 (n : Nat) (rest : List Nat) :
    readU32 (be32 n ++ rest) = .ok (n, rest) := by
  have h : n / 16777216 * 16777216 + n / 65536 % 256 * 65536 +
      n / 256 % 256 * 256 + n % 256 = n := by omega
  simp only [be32, List.cons_append, List.nil_append, readU32, h]

set_option maxRecDepth 4096 in
theorem PacketInfo.from_to_byte :
    ∀ pv < 4, ∀ rc < 4,
      PacketInfo.from_byte (0x80 ||| (pv <<< 5) ||| (rc <<< 3)) =
        ⟨1, pv, rc, 0⟩ := by decide

theorem typeByte_roundtrip (pt : PacketType) (dt : DataType) :
    PacketType.from_u4 (((pt.to_u4 <<< 4) ||| dt.to_u4) >>> 4) = .ok pt ∧
    DataType.from_u4 (((pt.to_u4 <<< 4) ||| dt.to_u4) &&& 0xf) = some dt := by
  cases pt <;> cases dt <;> exact ⟨rfl, rfl⟩

theorem crcShift_lt (c : Nat) : crcShift c < 65536 := by
  unfold crcShift
  split
  · exact Nat.xor_lt_two_pow (n := 16) (Nat.mod_lt _ (by omega)) (by omega)
  · exact Nat.mod_lt _ (by omega)

theorem crcRounds_lt (n : Nat) (c : Nat) (h : 0 < n) : crcRounds n c < 65536 := by
  induction n generalizing c with
  | zero => omega
  | succ m ih =>
    cases m with
    | zero => simpa [crcRounds] using crcShift_lt c
    | succ k => simpa [crcRounds] using ih (crcShift c) (Nat.succ_pos k)

theorem crc16Byte_lt (c b : Nat) : crc16Byte c b < 65536 :=
  crcRounds_lt 8 _ (by omega)

theorem crc16_foldl_lt (data : List Nat) :
    ∀ init, init < 65536 → data.foldl crc16Byte init < 65536 := by
  induction data with
  | nil => intro init h; simpa using h
  | cons b rest ih =>
    intro init _
    simpa [List.foldl_cons] using ih (crc16Byte init b) (crc16Byte_lt init b)

theorem crc16_lt (data : List Nat) : crc16 data < 65536 :=
  crc16_foldl_lt data 0 (by omega)

theorem serializeMessages_ok (msgs : List Message) (h : msgs.all Message.wfb = true) :
    ∃ bs, serializeMessages msgs = .ok bs := by
  induction msgs with
  | nil => exact ⟨[], rfl⟩
  | cons m ms ih =>
    rw [List.all_cons, Bool.and_eq_true] at h
    obtain ⟨bms, hms⟩ := ih h.2
    rcases m with ⟨n, v⟩
    have hm := h.1
    cases hk : messageKind n <;> cases v <;>
      simp only [Message.wfb, hk, Bool.and_eq_true, Bool.false_eq_true, and_false] at hm <;>
      simp [serializeMessages, serializeMessage, hk, hms]

theorem serializeMessages_parse (msgs : List Message) :
    msgs.all Message.wfb = true →
    ∀ bs, serializeMessages msgs = .ok bs →
    ∀ count rem i tail acc,
      readPayloadAux count (msgs.length + rem) i (bs ++ tail) acc =
        readPayloadAux count rem (i + msgs.length) tail (acc ++ msgs) := by
  induction msgs with
  | nil =>
    intro _ bs hs count rem i tail acc
    simp only [serializeMessages, Except.ok.injEq] at hs
    subst hs
    simp
  | cons m ms ih =>
    intro hall bs hs count rem i tail acc
    rw [List.all_cons, Bool.and_eq_true] at hall
    rcases m with ⟨n, v⟩
    simp only [serializeMessages] at hs
    cases hsm : serializeMessage ⟨n, v⟩ with
    | error e => rw [hsm] at hs; exact absurd hs (by simp)
    | ok bm =>
      rw [hsm] at hs
      cases hss : serializeMessages ms with
      | error e => rw [hss] at hs; exact absurd hs (by simp)
      | ok bms =>
        rw [hss] at hs
        simp only [Except.ok.injEq] at hs
        subst hs
        have hm := hall.1
        have hstep : (⟨n, v⟩ :: ms : List Message).length + rem = (ms.length + rem) + 1 := by
          simp [List.length_cons]; omega
        rw [hstep]
        cases hk : messageKind n <;> cases v <;>
          simp only [Message.wfb, hk, Bool.and_eq_true, Bool.false_eq_true, and_false] at hm
        all_goals simp only [serializeMessage, hk, Except.ok.injEq] at hsm
        all_goals subst hsm
        all_goals simp only [readPayloadAux, List.append_assoc, List.cons_append,
          List.nil_append, readU16_be16, readU32_be32, readU8_cons, hk]
        all_goals rw [ih hall.2 bms hss]
        all_goals have hidx : i + 1 + ms.length = i + (ms.length + 1) := by omega
        all_goals simp only [List.length_cons, hidx, List.append_assoc, List.singleton_append]

theorem feedAll_append (fp : FrameParser) (xs ys : List Nat) :
    feedAll fp (xs ++ ys) =
      ((feedAll (feedAll fp xs).1 ys).1,
        (feedAll fp xs).2 ++ (feedAll (feedAll fp xs).1 ys).2) := by
  induction xs generalizing fp with
  | nil => simp [feedAll]
  | cons b rest ih =>
    simp only [List.cons_append, feedAll]
    cases hfb : fp.feed b with
    | mk fp1 r => simp [List.append_eq, ih]

theorem feedAll_data (xs : List Nat) :
    ∀ buf, xs ≠ [] →
      feedAll ⟨.data xs.length, buf⟩ xs =
        (⟨.crcHi, buf ++ xs⟩, List.replicate xs.length (.ok none)) := by
  induction xs with
  | nil => intro buf h; exact absurd rfl h
  | cons b rest ih =>
    intro buf _
    cases rest with
    | nil => simp [feedAll, FrameParser.feed, feed_byte, next_data_state, List.replicate]
    | cons c cs =>
      have hr : (c :: cs : List Nat) ≠ [] := by simp
      have hstep : feedAll (⟨.data (b :: c :: cs : List Nat).length, buf⟩ : FrameParser)
          (b :: c :: cs) =
          ((feedAll ⟨.data (c :: cs : List Nat).length, buf ++ [b]⟩ (c :: cs)).1,
            .ok none :: (feedAll ⟨.data (c :: cs : List Nat).length, buf ++ [b]⟩ (c :: cs)).2) := by
        simp only [feedAll, FrameParser.feed, feed_byte, List.length_cons,
          Nat.add_sub_cancel, next_data_state, Nat.succ_ne_zero, if_false]
      rw [hstep, ih (buf ++ [b]) hr]
      simp [List.replicate, List.append_assoc]

theorem feedAll_size (L : Nat) (buf : List Nat) (h0 : L ≠ 0) (h : L ≤ 1024) :
    feedAll ⟨.start, buf⟩ [0x32, (L + 4) / 256, (L + 4) % 256] =
      (⟨.data L, []⟩, [.ok none, .ok none, .ok none]) := by
  have hsz : (L + 4) / 256 * 256 + (L + 4) % 256 = L + 4 := by omega
  have hlt : ¬ (L + 4 < 4) := by omega
  have hlong : ¬ (1024 < L + 4 - 4) := by omega
  have hlong2 : ¬ (1024 < L) := by omega
  simp [feedAll, FrameParser.feed, feed_byte, hsz, hlt, hlong, hlong2, next_data_state, h0]

theorem feedAll_crc_end (buf : List Nat) :
    feedAll ⟨.crcHi, buf⟩ [crc16 buf / 256, crc16 buf % 256, 0x34] =
      (⟨.start, buf⟩, [.ok none, .ok none, .ok (some buf)]) := by
  have h : crc16 buf / 256 * 256 + crc16 buf % 256 = crc16 buf := by omega
  simp [feedAll, FrameParser.feed, feed_byte, h]

theorem frame_feed (payload : List Nat) (hne : payload ≠ []) (hlen : payload.length ≤ 1024) :
    feedAll FrameParser.new
        ([0x32] ++ be16 (payload.length + 4) ++ payload ++ be16 (crc16 payload) ++ [0x34]) =
      (⟨.start, payload⟩,
        [.ok none, .ok none, .ok none] ++ List.replicate payload.length (.ok none) ++
          [.ok none, .ok none, .ok (some payload)]) := by
  have hre : [0x32] ++ be16 (payload.length + 4) ++ payload ++ be16 (crc16 payload) ++ [0x34] =
      [0x32, (payload.length + 4) / 256, (payload.length + 4) % 256] ++
        (payload ++ [crc16 payload / 256, crc16 payload % 256, 0x34]) := by
    simp [be16, List.append_assoc]
  rw [hre]
  simp only [FrameParser.new]
  rw [feedAll_append, feedAll_size payload.length [] (by simpa using hne) hlen,
    feedAll_append, feedAll_data payload [] hne]
  simp only [List.nil_append]
  rw [feedAll_crc_end payload]
  simp [List.append_assoc]

/-! ## Claim C1 -/

/-- Claim C1 (amended): for every well-formed `Packet` whose message kinds
match their message ids and whose `packet_info` has `info = 1` and
`reserved = 0` (any `protocol_version` and `retry_count`), serializing and
parsing the result yields a packet equal to the original.  The `info = 1`
and `reserved = 0` conditions are forced: `PacketInfo::to_byte` emits bit 7
as 1 and bits 2-0 as 0 unconditionally. -/
theorem parse_serialize_roundtrip (p : Packet) (hwf : p.wfb = true)
    (hinfo : p.packet_info.info = 1) (hres : p.packet_info.reserved = 0) :
    ∃ bytes, p.serialize = .ok bytes ∧ Packet.parse bytes = .ok p := by
  rcases p with ⟨⟨sc, sch, sa⟩, ⟨dc, dch, da⟩, ⟨pinfo, pv, rc, prsv⟩, pt, dt, pn, d⟩
  simp only [PacketInfo.info] at hinfo
  simp only [PacketInfo.reserved] at hres
  subst hinfo
  subst hres
  simp only [Packet.wfb, PacketInfo.wfb, Bool.and_eq_true, decide_eq_true_eq] at hwf
  obtain ⟨⟨⟨⟨hsw, hdw⟩, ⟨⟨_, hpv⟩, hrc⟩, _⟩, hpn⟩, hdata⟩ := hwf
  have hpi : PacketInfo.from_byte (PacketInfo.to_byte ⟨1, pv, rc, 0⟩) = ⟨1, pv, rc, 0⟩ := by
    simpa [PacketInfo.to_byte] using PacketInfo.from_to_byte pv hpv rc hrc
  have htb := typeByte_roundtrip pt dt
  cases d with
  | messages msgs =>
    simp only [Data.wfb, Bool.and_eq_true, decide_eq_true_eq] at hdata
    obtain ⟨bs, hbs⟩ := serializeMessages_ok msgs hdata.2
    refine ⟨sc :: sch :: sa :: dc :: dch :: da ::
        PacketInfo.to_byte ⟨1, pv, rc, 0⟩ :: ((pt.to_u4 <<< 4) ||| dt.to_u4) :: pn ::
        msgs.length :: bs,
      by simp [Packet.serialize, Address.to_bytes, hbs], ?_⟩
    have hrp : read_payload msgs.length bs = .ok (.messages msgs) := by
      have := serializeMessages_parse msgs hdata.2 bs hbs msgs.length 0 0 [] []
      simpa [read_payload, readPayloadAux] using this
    simp only [Packet.parse, readArray3_cons, readU8_cons, htb.1, htb.2, hpi, hrp,
      Address.from_bytes]
  | struct s =>
    simp only [Data.wfb, Bool.and_eq_true, decide_eq_true_eq] at hdata
    obtain ⟨⟨⟨hnum, hkind⟩, hlen⟩, _⟩ := hdata
    refine ⟨sc :: sch :: sa :: dc :: dch :: da ::
        PacketInfo.to_byte ⟨1, pv, rc, 0⟩ :: ((pt.to_u4 <<< 4) ||| dt.to_u4) :: pn ::
        1 :: (be16 s.number ++ s.data),
      by simp [Packet.serialize, Address.to_bytes, hkind], ?_⟩
    have hrp : read_payload 1 (be16 s.number ++ s.data) = .ok (.struct s) := by
      simp only [read_payload, readPayloadAux, readU16_be16, hkind]
      simp [Nat.not_lt.mpr hlen]
    simp only [Packet.parse, readArray3_cons, readU8_cons, htb.1, htb.2, hpi, hrp,
      Address.from_bytes]

/-- Claim C1 witness: a concrete well-formed Notification packet with one
Enum message round-trips. -/
theorem parse_serialize_roundtrip_witness :
    Packet.wfb ⟨⟨0x80, 0x10, 0x10⟩, ⟨0x20, 0, 0⟩, ⟨1, 2, 0, 0⟩, .normal, .notification, 5,
        .messages [⟨0x4000, .enum 1⟩]⟩ = true ∧
    ∃ bytes,
      Packet.serialize ⟨⟨0x80, 0x10, 0x10⟩, ⟨0x20, 0, 0⟩, ⟨1, 2, 0, 0⟩, .normal,
        .notification, 5, .messages [⟨0x4000, .enum 1⟩]⟩ = .ok bytes ∧
      Packet.parse bytes = .ok ⟨⟨0x80, 0x10, 0x10⟩, ⟨0x20, 0, 0⟩, ⟨1, 2, 0, 0⟩, .normal,
        .notification, 5, .messages [⟨0x4000, .enum 1⟩]⟩ :=
  ⟨by decide, parse_serialize_roundtrip _ (by decide) rfl rfl⟩

set_option maxRecDepth 8192 in
/-- Claim C1 counterexample: a well-formed packet whose `packet_info.info`
bit is 0 serializes fine, but parsing the serialized bytes yields a packet
whose `info` bit is 1, so `parse (serialize p) ≠ p` even though every
message kind matches its id. -/
theorem parse_serialize_info_counterexample :
    Packet.wfb ⟨⟨0x80, 0x10, 0x10⟩, ⟨0x20, 0, 0⟩, ⟨0, 2, 0, 0⟩, .normal, .read, 0,
        .messages []⟩ = true ∧
    Packet.serialize ⟨⟨0x80, 0x10, 0x10⟩, ⟨0x20, 0, 0⟩, ⟨0, 2, 0, 0⟩, .normal, .read, 0,
        .messages []⟩ = .ok [0x80, 0x10, 0x10, 0x20, 0, 0, 0xc0, 0x11, 0, 0] ∧
    Packet.parse [0x80, 0x10, 0x10, 0x20, 0, 0, 0xc0, 0x11, 0, 0] =
      .ok ⟨⟨0x80, 0x10, 0x10⟩, ⟨0x20, 0, 0⟩, ⟨1, 2, 0, 0⟩, .normal, .read, 0,
        .messages []⟩ ∧
    Packet.parse [0x80, 0x10, 0x10, 0x20, 0, 0, 0xc0, 0x11, 0, 0] ≠
      .ok ⟨⟨0x80, 0x10, 0x10⟩, ⟨0x20, 0, 0⟩, ⟨0, 2, 0, 0⟩, .normal, .read, 0,
        .messages []⟩ := by decide

/-! ## Claim C2 -/

set_option maxRecDepth 200000 in
/-- Claim C2 (code bug): `serialize_frame` does not write `crc16(payload)`.
Because `serialize` returns the absolute writer position, the CRC slice
covers the payload plus the next 7 bytes of the output buffer.  For a
concrete 10-byte payload serialized into a zeroed buffer the emitted CRC
field is 13996 = crc16(payload ++ seven zero bytes), while crc16(payload)
is 51191, and the crate's own `FrameParser`, fed the emitted frame, fails
`BadCrc` instead of yielding the payload. -/
theorem serialize_frame_crc_bug :
    Packet.serialize ⟨⟨0, 0, 0⟩, ⟨0, 0, 0⟩, ⟨1, 2, 0, 0⟩, .normal, .read, 0, .messages []⟩ =
      .ok [0, 0, 0, 0, 0, 0, 0xc0, 0x11, 0, 0] ∧
    Packet.serialize_frame
        ⟨⟨0, 0, 0⟩, ⟨0, 0, 0⟩, ⟨1, 2, 0, 0⟩, .normal, .read, 0, .messages []⟩
        (List.replicate 7 0) =
      .ok [0xfd, 0xf8, 0xef, 0x7c, 0x32, 0, 14, 0, 0, 0, 0, 0, 0, 0xc0, 0x11, 0, 0,
        54, 172, 0x34] ∧
    crc16 [0, 0, 0, 0, 0, 0, 0xc0, 0x11, 0, 0] = 51191 ∧
    54 * 256 + 172 ≠ 51191 ∧
    (feedAll FrameParser.new
        [0xfd, 0xf8, 0xef, 0x7c, 0x32, 0, 14, 0, 0, 0, 0, 0, 0, 0xc0, 0x11, 0, 0,
          54, 172, 0x34]).2 =
      List.replicate 18 (.ok none) ++ [.error (.badCrc 13996 51191), .ok none] := by
  decide

/-! ## Claim C3 -/

set_option maxRecDepth 8192 in
/-- Claim C3 (code bug): `Packet::parse` does not return one of the four
packet errors on every input.  An 8-byte slice whose type byte is `0x18`
(packet_type 1 = Normal, data_type nibble 8) reaches the `unreachable!()`
arm of `DataType::from_u4` and aborts. -/
theorem parse_datatype_nibble_panics :
    Packet.parse [0x80, 0x10, 0x10, 0x20, 0x00, 0x00, 0xa0, 0x18] = .panic ∧
    DataType.from_u4 8 = none := by
  decide

/-! ## Claim C4 -/

/-- Claim C4: with the reply wait timing out every time, `send_with_retry`
starting at `retry_count = 0` sends the packet exactly four times - always
with the same packet number and with retry counts 0, 1, 2, 3 - and the
fourth timeout (when `retry_count` already equals 3 = `u2::MAX`) fails with
`MaxRetriesExceeded`; a timeout at `retry_count = 3` fails immediately
after a single send. -/
theorem send_with_retry_four_attempts (pn : Nat) (w : List Nat) (rest : List WaitOutcome) :
    send_with_retry w pn 0 (.timeout :: .timeout :: .timeout :: .timeout :: rest) =
      (some .maxRetriesExceeded, [(pn, 0), (pn, 1), (pn, 2), (pn, 3)], insertKey w pn) ∧
    send_with_retry_loop pn 3 (insertKey w pn) (.timeout :: rest) =
      (some .maxRetriesExceeded, [(pn, 3)], insertKey w pn) :=
  ⟨rfl, rfl⟩

/-- Claim C4 witness at concrete inputs. -/
theorem send_with_retry_four_attempts_witness :
    send_with_retry [] 42 0 [.timeout, .timeout, .timeout, .timeout] =
      (some .maxRetriesExceeded, [(42, 0), (42, 1), (42, 2), (42, 3)], insertKey [] 42) :=
  (send_with_retry_four_attempts 42 [] []).1

/-! ## Claim C5 -/

/-- Claim C5 (code bug): the waiting-table entry is not removed on every
terminal outcome.  After four consecutive timeouts `send_with_retry`
returns `MaxRetriesExceeded` with the entry for packet number 7 still in
the table (the source leaves removal as a TODO); only the reply outcome
removes it (via `on_reply`). -/
theorem send_with_retry_leaves_entry :
    send_with_retry [] 7 0 [.timeout, .timeout, .timeout, .timeout] =
      (some .maxRetriesExceeded, [(7, 0), (7, 1), (7, 2), (7, 3)], [7]) ∧
    7 ∈ ([7] : List Nat) := by
  decide

/-! ## Claim C6 -/

/-- Claim C6 (code bug): the broker is missing the client-to-client
reflection path.  Client packets enter only the mpsc channel drained by the
serial-port writer, and the broadcast channel that client tasks forward
carries bus packets alone.  Evaluated at the failing input: with clients 0
and 1 connected, a valid packet arriving from client 0 is forwarded to the
bus but delivered to no client at all - in particular not to the other
client 1, which the documented design says must receive it. -/
theorem broker_no_client_reflection :
    routePacket [0, 1]
        (.fromClient 0 ⟨⟨0x80, 0x10, 0x10⟩, ⟨0x20, 0, 0⟩, ⟨1, 2, 0, 0⟩, .normal, .write, 3,
          .messages []⟩) =
      { toBus := true, toClients := [] } ∧
    1 ∉ (routePacket [0, 1]
        (.fromClient 0 ⟨⟨0x80, 0x10, 0x10⟩, ⟨0x20, 0, 0⟩, ⟨1, 2, 0, 0⟩, .normal, .write, 3,
          .messages []⟩)).toClients := by
  decide

/-! ## Claim C7 -/

/-- Claim C7: a Structure-kind message id parses successfully exactly as
the sole message: with `message_count = 1` it consumes the whole remainder
(at most 256 bytes; 257 or more fails `StructureTooLong` with the actual
size); with `message_count ≠ 1` it fails `UnexpectedStructure` even in
first position; and after any non-empty prefix of well-formed non-structure
messages it fails `UnexpectedStructure` as well. -/
theorem structure_payload_rules (n : Nat) (hn : n < 65536)
    (hk : messageKind n = .structure_) (rest : List Nat) :
    (rest.length ≤ 256 → read_payload 1 (be16 n ++ rest) = .ok (.struct ⟨n, rest⟩)) ∧
    (256 < rest.length →
      read_payload 1 (be16 n ++ rest) = .error (.structureTooLong rest.length)) ∧
    (∀ count, count ≠ 1 → 0 < count →
      read_payload count (be16 n ++ rest) = .error .unexpectedStructure) ∧
    (∀ pre bs count, pre ≠ [] → pre.all Message.wfb = true →
      serializeMessages pre = .ok bs → pre.length < count →
      read_payload count (bs ++ (be16 n ++ rest)) = .error .unexpectedStructure) := by
  refine ⟨?_, ?_, ?_, ?_⟩
  · intro hle
    simp [read_payload, readPayloadAux, readU16_be16, hk, Nat.not_lt.mpr hle]
  · intro hgt
    simp [read_payload, readPayloadAux, readU16_be16, hk, hgt]
  · intro count hc h0
    obtain ⟨k, rfl⟩ : ∃ k, count = k + 1 := ⟨count - 1, by omega⟩
    simp [read_payload, readPayloadAux, readU16_be16, hk, hc]
  · intro pre bs count hne hall hs hlt
    have hcount : count = pre.length + (count - pre.length) := by omega
    obtain ⟨r, hr⟩ : ∃ r, count - pre.length = r + 1 := ⟨count - pre.length - 1, by omega⟩
    have step := serializeMessages_parse pre hall bs hs count (count - pre.length) 0
      (be16 n ++ rest) []
    rw [read_payload]
    nth_rewrite 2 [hcount]
    rw [step]
    rw [hr]
    have hpre : pre.length ≠ 0 := fun h => hne (List.eq_nil_of_length_eq_zero h)
    simp [readPayloadAux, readU16_be16, hk, hpre]

/-- Claim C7 witness: message id `0x0600` has Structure kind; as the sole
message with a 3-byte remainder it parses to that structure. -/
theorem structure_payload_rules_witness :
    messageKind 0x600 = .structure_ ∧
    read_payload 1 (be16 0x600 ++ [1, 2, 3]) = .ok (.struct ⟨0x600, [1, 2, 3]⟩) :=
  ⟨by decide, (structure_payload_rules 0x600 (by decide) (by decide) [1, 2, 3]).1 (by decide)⟩

/-! ## Claim C8 -/

set_option maxRecDepth 100000 in
/-- Claim C8: after the two size bytes combine to `size = size_hi * 256 +
size_lo`, every `size < 4` fails `FrameTooShort size` (declared size 3
does), and every `size` with `size - 4 > 1024` fails `FrameTooLong size`
(declared size 1029 does); a full frame with a 1024-byte payload and
correct CRC is accepted and yields the payload; and every call of `feed`
either reports no event and keeps parsing or leaves the parser reset to
`Start` (so in particular every error resets it). -/
theorem frame_size_checks :
    (∀ size_hi byte buf, size_hi * 256 + byte < 4 →
      feed_byte (.sizeLo size_hi) buf byte =
        (.error (.frameTooShort (size_hi * 256 + byte)), buf)) ∧
    (∀ size_hi byte buf, 1024 < size_hi * 256 + byte - 4 →
      feed_byte (.sizeLo size_hi) buf byte =
        (.error (.frameTooLong (size_hi * 256 + byte)), buf)) ∧
    (∀ buf, feed_byte (.sizeLo 0) buf 3 = (.error (.frameTooShort 3), buf)) ∧
    (∀ buf, feed_byte (.sizeLo 4) buf 5 = (.error (.frameTooLong 1029), buf)) ∧
    feedAll FrameParser.new
        ([0x32] ++ be16 1028 ++ List.replicate 1024 0 ++
          be16 (crc16 (List.replicate 1024 0)) ++ [0x34]) =
      (⟨.start, List.replicate 1024 0⟩,
        [.ok none, .ok none, .ok none] ++ List.replicate 1024 (.ok none) ++
          [.ok none, .ok none, .ok (some (List.replicate 1024 0))]) ∧
    (∀ fp b, ((fp : FrameParser).feed b).2 = .ok none ∨ (fp.feed b).1.state = .start) := by
  refine ⟨?_, ?_, fun buf => rfl, fun buf => rfl, ?_, ?_⟩
  · intro size_hi byte buf h
    simp [feed_byte, h]
  · intro size_hi byte buf h
    have h4 : ¬ (size_hi * 256 + byte < 4) := by omega
    simp [feed_byte, h4, h]
  · have hfeed := frame_feed (List.replicate 1024 0)
      (by intro h; have hlr := congrArg List.length h; simp at hlr) (by simp)
    simpa using hfeed
  · intro fp b
    rcases fp with ⟨st, buf⟩
    rcases h : feed_byte st buf b with ⟨t, buf2⟩
    cases t <;> simp [FrameParser.feed, h]

/-- Claim C8 witness: the universal size checks applied at declared sizes
2 (= 0x00 0x02, too short) and 1030 (= 0x04 0x06, too long). -/
theorem frame_size_checks_witness :
    (0 * 256 + 2 < 4 ∧
      feed_byte (.sizeLo 0) [] 2 = (.error (.frameTooShort (0 * 256 + 2)), [])) ∧
    (1024 < 4 * 256 + 6 - 4 ∧
      feed_byte (.sizeLo 4) [] 6 = (.error (.frameTooLong (4 * 256 + 6)), [])) :=
  ⟨⟨by decide, frame_size_checks.1 0 2 [] (by decide)⟩,
   ⟨by decide, frame_size_checks.2.1 4 6 [] (by decide)⟩⟩

/-! ## Claim C9 -/

/-- Claim C9: the receive dispatch completes (and removes) the waiting slot
keyed by the packet's packet_number exactly when the packet_type is
`Normal`, the payload is a message list, the data_type is `Ack`, `Nack` or
`Response`, the destination is the local address `80.10.10`, and such a
slot exists; in every other case the waiting table is left unchanged. -/
theorem dispatch_completes_iff (w : List Nat) (p : Packet) :
    ((task_step LOCAL_ADDRESS w p).1 = .completeSlot p.packet_number ↔
      (p.packet_type = .normal ∧ p.data.isMessages = true ∧
        (p.data_type = .ack ∨ p.data_type = .nack ∨ p.data_type = .response) ∧
        p.destination = LOCAL_ADDRESS ∧ p.packet_number ∈ w)) ∧
    ((task_step LOCAL_ADDRESS w p).2 =
      if p.packet_type = .normal ∧ p.data.isMessages = true ∧
          (p.data_type = .ack ∨ p.data_type = .nack ∨ p.data_type = .response) ∧
          p.destination = LOCAL_ADDRESS ∧ p.packet_number ∈ w
        then removeKey w p.packet_number else w) := by
  rcases p with ⟨src, dst, pi, pt, dt, pn, d⟩
  by_cases hdst : dst = LOCAL_ADDRESS <;> by_cases hmem : pn ∈ w <;>
    cases pt <;> cases d <;> cases dt <;>
      simp [task_step, on_reply, Data.isMessages, hdst, hmem]

/-! ## Claim C10 -/

set_option maxRecDepth 4096 in
/-- Claim C10: for every byte, `to_byte (from_byte b) = (b & 0x78) | 0x80`:
the protocol_version and retry_count bits survive, the info bit is forced
to 1, and the reserved bits are forced to 0. -/
theorem packet_info_byte_roundtrip :
    ∀ b, b < 256 →
      PacketInfo.to_byte (PacketInfo.from_byte b) = (b &&& 0x78) ||| 0x80 := by
  decide

/-- Claim C10 witness at byte `0xa7`. -/
theorem packet_info_byte_roundtrip_witness :
    (0xa7 : Nat) < 256 ∧
    PacketInfo.to_byte (PacketInfo.from_byte 0xa7) = (0xa7 &&& 0x78) ||| 0x80 :=
  ⟨by decide, packet_info_byte_roundtrip 0xa7 (by decide)⟩

end SamsungNasa
